import Mathlib

/-!
Verification development for the OEJP metering integration.

This file gives a shallow embedding, in Lean 4, of the logic of the
repository's Python modules `api.py` (GraphQL client: response
classification, login, auth refresh, readings fetch, dashboard
aggregation) and `sensor.py` (cumulative energy accumulator), and proves
properties of that embedding.

Modelling conventions:
* Parsed JSON values are the inductive `Json`; Python dicts are
  association lists looked up by first key occurrence.
* Python numbers (ints/floats/Decimals) are modelled as rationals `ℚ`;
  the textual rendering of a number by `str()` is abstracted to a
  digits-only rendering (no claim below depends on it).
* Instants (datetimes) are modelled as `ℤ` epoch seconds; timezone
  conversion (`astimezone`) does not change the instant, so comparisons
  of converted datetimes are comparisons of these integers.
* Python exceptions that the code raises or lets escape are explicit
  result constructors.
-/

/-- A parsed JSON value, as produced by `json.loads` in `api.py`. -/
inductive Json where
  | null : Json
  | bool (b : Bool) : Json
  | num (q : ℚ) : Json
  | str (s : String) : Json
  | arr (xs : List Json) : Json
  | obj (fields : List (String × Json)) : Json

/-- Python `dict.get`: first binding of the key, `None` when absent. -/
def jget : List (String × Json) → String → Option Json
  | [], _ => none
  | (k, v) :: rest, key => if k = key then some v else jget rest key

/-- Python truthiness of a parsed-JSON value: `None`, `False`, `0`, `""`,
`[]` and `\x7b\x7d` are falsy, everything else truthy. -/
def Json.truthy : Json → Bool
  | .null => false
  | .bool b => b
  | .num q => decide (q ≠ 0)
  | .str s => !s.isEmpty
  | .arr xs => !xs.isEmpty
  | .obj fs => !fs.isEmpty

/-- Truthiness of the result of a `dict.get` (absent key is `None`, falsy). -/
def optTruthy (o : Option Json) : Bool :=
  match o with
  | some j => j.truthy
  | none => false

/-! ## Cumulative accumulator (`sensor.py`, `OEJPCumulativeEnergy._apply_recent`)

The Python loop body checks `isinstance(item, dict)`, reads
`item.get("end_jst")` and `item.get("kwh")`, and skips the item unless
`end_jst` is a `str` and `kwh` an `int`/`float` (`bool` is a subclass of
`int` in Python, hence accepted with value 0/1). -/

/-- The numeric value of an item's `kwh` field when it passes
`isinstance(kwh, (int, float))`, else `none`. -/
def numVal : Json → Option ℚ
  | .num q => some q
  | .bool b => some (if b then 1 else 0)
  | _ => none

/-- The `(end_jst, kwh)` pair of a recent-readings item when the item
passes all the type guards of the loop body, else `none`. -/
def itemFields : Json → Option (String × ℚ)
  | .obj fs =>
    match jget fs "end_jst", jget fs "kwh" with
    | some (.str e), some v =>
      match numVal v with
      | some q => some (e, q)
      | none => none
    | _, _ => none
  | _ => none

/-- Python string comparison `a < b`: lexicographic, code point by code
point, shorter prefix first.  (Executable; bridged below to the
lexicographic order `List.Lex` on the character lists.) -/
def charListLtB : List Char → List Char → Bool
  | [], [] => false
  | [], _ :: _ => true
  | _ :: _, [] => false
  | a :: as, b :: bs =>
    if a < b then true
    else if b < a then false
    else charListLtB as bs

/-- Python `a < b` on strings. -/
def strLtB (a b : String) : Bool :=
  charListLtB a.data b.data

/-- The guard `self._last_end is None or end_jst > self._last_end`.
`m` is the accumulator's `_last_end` at loop entry; Python compares
strings code point by code point (`strLtB`). -/
def afterItem (m : Option String) (e : String) : Bool :=
  match m with
  | none => true
  | some m0 => strLtB m0 e

/-- One iteration of the `for item in recent` loop. The accumulator pair
carries `(self._total, new_last_end)`; the guard uses the loop-entry
marker `m`, which the loop never updates. -/
def applyStep (m : Option String) (acc : ℚ × Option String) (item : Json) :
    ℚ × Option String :=
  match itemFields item with
  | none => acc
  | some (e, q) => if afterItem m e then (acc.1 + q, some e) else acc

/-- `_apply_recent`'s loop over an item list: starting total `t` and
marker `m` (with `new_last_end` initialized to `m`), returning the new
`(total, last_end)`. -/
def applyRecent (t : ℚ) (m : Option String) (recent : List Json) :
    ℚ × Option String :=
  recent.foldl (applyStep m) (t, m)

/-- `_apply_recent` including its outer guards: `recent_readings or []`,
the `isinstance(recent, list)` early return, and `self._total is None`
defaulting to `0.0`. The state is `(_total, _last_end)`. -/
def applyRecentEntity (total : Option ℚ) (lastEnd : Option String)
    (recentField : Option Json) : Option ℚ × Option String :=
  let recent := match recentField with
    | some j => if j.truthy then j else Json.arr []
    | none => Json.arr []
  match recent with
  | .arr items =>
    let r := applyRecent (total.getD 0) lastEnd items
    (some r.1, r.2)
  | _ => (total, lastEnd)

/-- A well-formed recent-readings item as the dashboard emits it:
`\x7b"end_jst": e, "kwh": v\x7d`. -/
def mkItem (p : String × ℚ) : Json :=
  Json.obj [("end_jst", Json.str p.1), ("kwh", Json.num p.2)]

/-- The end markers of the items of `l` that pass the loop's type guards,
in list order. -/
def validEnds (l : List Json) : List String :=
  l.filterMap (fun j => (itemFields j).map Prod.fst)

/-- The `kwh` value of an item when valid, `0` otherwise (used to state
sign hypotheses decidably). -/
def itemKwh (j : Json) : ℚ :=
  ((itemFields j).map Prod.snd).getD 0

/-! ## Response classification (`api.py`, `OEJPApi._post`)

`_post` parses the response text as JSON and then classifies.  We model
the classification of an already-parsed body.  Python `str()` of the
parsed error value is `pyStr` below; its numeric rendering is an
abstraction (digits and a slash only), which no theorem depends on. -/

/-- Python `repr` of a string as it appears inside `str()` of a
list/dict: the text between quotes, with backslash and quote escaped
(quote-character selection is abstracted to always-single-quote). -/
def pyReprStr (s : String) : String :=
  "\x27" ++ String.join (s.data.map fun c =>
    if c = '\\' then "\\\\"
    else if c = '\x27' then "\\\x27"
    else String.singleton c) ++ "\x27"

/-- Python `str()` of a parsed-JSON value, as used for the GraphQL
`errors` value in `_post` (`msg = str(body.get("errors"))`). -/
def pyStr : Json → String
  | .null => "None"
  | .bool true => "True"
  | .bool false => "False"
  | .num q => toString q.num ++ (if q.den = 1 then "" else "/" ++ toString q.den)
  | .str s => pyReprStr s
  | .arr xs => "[" ++ String.intercalate ", " (xs.attach.map fun x => pyStr x.1) ++ "]"
  | .obj fs => "\x7b" ++
      String.intercalate ", "
        (fs.attach.map fun kv => pyReprStr kv.1.1 ++ ": " ++ pyStr kv.1.2) ++
      "\x7d"
decreasing_by
  · have h := List.sizeOf_lt_of_mem x.2
    simp only [Json.arr.sizeOf_spec]
    omega
  · have h := List.sizeOf_lt_of_mem kv.2
    obtain ⟨⟨k, v⟩, hkv⟩ := kv
    simp only [Prod.mk.sizeOf_spec] at h
    simp only [Json.obj.sizeOf_spec]
    omega

/-- Python `needle in hay` on strings: substring containment. -/
def pyIn (needle hay : String) : Bool :=
  hay.data.tails.any fun t => needle.data.isPrefixOf t

/-- Outcome of `_post` after JSON parsing succeeded: the returned `data`
dict, a raised `OEJPApiError` / `OEJPAuthError`, or an uncaught Python
exception (e.g. `AttributeError` from `body.get` on a non-dict). -/
inductive PostResult where
  | ok (data : List (String × Json)) : PostResult
  | apiError (msg : String) : PostResult
  | authError (msg : String) : PostResult
  | pyError (kind : String) : PostResult

/-- `_post` classification (api.py lines 143-161) of an HTTP `status`
and parsed `body`.  A non-dict body hits `body.get("errors")` and
raises `AttributeError` (uncaught) whatever the status. -/
def postOutcome (status : Nat) (body : Json) : PostResult :=
  match body with
  | .obj fields =>
    let errs := jget fields "errors"
    if status ≥ 400 then
      if optTruthy errs then
        .apiError ("HTTP " ++ toString status ++ " GraphQL errors: " ++
          pyStr (errs.getD .null))
      else
        .apiError ("HTTP " ++ toString status)
    else
      if optTruthy errs then
        let msg := pyStr (errs.getD .null)
        if pyIn "Unauthorized" msg || pyIn "UNAUTHENTICATED" msg then
          .authError msg
        else
          .apiError msg
      else
        match jget fields "data" with
        | some (.obj d) => .ok d
        | _ => .apiError "Missing data"
  | _ => .pyError "AttributeError"

/-! ## Readings response shape (`api.py`, `OEJPApi.async_get_hh_readings`)

Lines 245-255 navigate `data["account"]["properties"][0]
["electricitySupplyPoints"][0]["halfHourlyReadings"]` inside a
`try/except KeyError`.  We model Python subscription exactly: dict
lookup (missing key raises `KeyError`), subscripting `None`/numbers/
booleans raises `TypeError`, `x[0]` on a list takes the head. -/

inductive PyExc where
  | keyError (k : String) : PyExc
  | typeError : PyExc
  | indexError : PyExc

/-- Python `x[k]` for a string key `k`. -/
def sub (j : Json) (k : String) : Except PyExc Json :=
  match j with
  | .obj fs =>
    match jget fs k with
    | some v => .ok v
    | none => .error (.keyError k)
  | _ => .error .typeError

/-- Python `x[0]`. -/
def sub0 (j : Json) : Except PyExc Json :=
  match j with
  | .arr [] => .error .indexError
  | .arr (h :: _) => .ok h
  | .obj _ => .error (.keyError "0")
  | .str s =>
    match s.data with
    | [] => .error .indexError
    | c :: _ => .ok (.str (String.singleton c))
  | _ => .error .typeError

/-- Outcome of the shape navigation: the raw readings value, a raised
`OEJPApiError`, or an uncaught Python exception. -/
inductive ShapeResult where
  | okRaw (raw : Json) : ShapeResult
  | apiError (msg : String) : ShapeResult
  | pyError (kind : String) : ShapeResult

/-- The `except KeyError` clause re-raises as
`OEJPApiError(f"Unexpected response shape missing \x7be\x7d")`, where the
f-string of a `KeyError` shows the quoted key; the other exception kinds
escape the `try`. -/
def shapeErr : PyExc → ShapeResult
  | .keyError k => .apiError ("Unexpected response shape missing \x27" ++ k ++ "\x27")
  | .typeError => .pyError "TypeError"
  | .indexError => .pyError "IndexError"

/-- The `try` block of `async_get_hh_readings` (lines 245-255): the
nested navigation, the two emptiness guards (whose `OEJPApiError`s are
not `KeyError`s, hence propagate), and `... or []` on the final list. -/
def extractHH (data : List (String × Json)) : ShapeResult :=
  match sub (Json.obj data) "account" with
  | .error e => shapeErr e
  | .ok acct =>
    match sub acct "properties" with
    | .error e => shapeErr e
    | .ok props =>
      if props.truthy = false then .apiError "No properties returned"
      else
        match sub0 props with
        | .error e => shapeErr e
        | .ok p0 =>
          match sub p0 "electricitySupplyPoints" with
          | .error e => shapeErr e
          | .ok esp =>
            if esp.truthy = false then .apiError "No electricitySupplyPoints returned"
            else
              match sub0 esp with
              | .error e => shapeErr e
              | .ok e0 =>
                match sub e0 "halfHourlyReadings" with
                | .error e => shapeErr e
                | .ok hr => .okRaw (if hr.truthy then hr else Json.arr [])

/-! ## Reading construction and sorting (`api.py` lines 257-271) -/

/-- An `HHReading`; instants are epoch seconds, the value an exact
rational (the Python code goes through `Decimal(str(...))`). -/
structure HHReading where
  start_at : ℤ
  end_at : ℤ
  version : Option String
  value : ℚ

/-- `readings.sort(key=lambda x: x.start_at)` (line 270): a stable sort
ascending by `start_at`. -/
def sortReadings (l : List HHReading) : List HHReading :=
  l.mergeSort fun a b => decide (a.start_at ≤ b.start_at)

/-! ## Dashboard bucketing (`api.py`, `OEJPApi.async_get_dashboard`)

Lines 289-307. Boundaries and the JST-converted start instant of each
reading are epoch-second integers; `astimezone(JST)` does not change the
instant, so the Python datetime comparisons are these integer
comparisons. -/

structure Buckets where
  today_kwh : ℚ
  yday_kwh : ℚ
  mtd_kwh : ℚ
  last_month_kwh : ℚ

/-- Boundaries computed before the loop: `prev_month_end = month_start`
and `yday_mid = today_mid - 24h` hold by construction. -/
structure DashBounds where
  month_start : ℤ
  prev_month_start : ℤ
  prev_month_end : ℤ
  today_mid : ℤ
  yday_mid : ℤ

/-- The body of the `for r in range_months` loop for one reading with
JST start instant `stJst` and value `v`: one `if/elif` for the month
buckets, then an independent `if/elif` for the day buckets. -/
def bucketStep (bd : DashBounds) (b : Buckets) (stJst : ℤ) (v : ℚ) : Buckets :=
  let b1 :=
    if stJst ≥ bd.month_start then { b with mtd_kwh := b.mtd_kwh + v }
    else if stJst ≥ bd.prev_month_start ∧ stJst < bd.prev_month_end then
      { b with last_month_kwh := b.last_month_kwh + v }
    else b
  if stJst ≥ bd.today_mid then { b1 with today_kwh := b1.today_kwh + v }
  else if stJst ≥ bd.yday_mid ∧ stJst < bd.today_mid then
    { b1 with yday_kwh := b1.yday_kwh + v }
  else b1

/-- The whole aggregation loop over the range window. -/
def dashboardBuckets (bd : DashBounds) (rs : List (ℤ × ℚ)) : Buckets :=
  rs.foldl (fun b r => bucketStep bd b r.1 r.2) ⟨0, 0, 0, 0⟩

/-! ## Auth session (`api.py`, `OEJPApi._login` and `_ensure_auth`) -/

/-- The mutable session fields of `OEJPApi`.  The stored token is kept
as the JSON value the login response carried (the code stores
`obj["token"]` unchecked beyond truthiness). -/
structure ApiState where
  access_token : Option Json
  access_exp : Option ℤ
  account_number : Option String

/-- A raised exception, as `_login` can surface one. -/
inductive ExcKind where
  | authErr (msg : String) : ExcKind
  | apiErr (msg : String) : ExcKind
  | pyExc (kind : String) : ExcKind

/-- `_login` (lines 163-177) as a state transformer.  `r` is the result
of the login `_post` (its raised exception propagates), `jwtExp`
abstracts `_jwt_exp` (never raises; `none` when undecodable).  Returns
the new state and the raised exception, if any. -/
def loginStep (jwtExp : Json → Option ℤ) (s : ApiState)
    (r : Except ExcKind (List (String × Json))) : ApiState × Option ExcKind :=
  match r with
  | .error e => (s, some e)
  | .ok data =>
    match jget data "obtainKrakenToken" with
    | none => (s, some (.authErr "Login failed"))
    | some o =>
      if o.truthy = false then (s, some (.authErr "Login failed"))
      else
        match o with
        | .obj fs =>
          match jget fs "token" with
          | none => (s, some (.authErr "Login failed"))
          | some tok =>
            if tok.truthy = false then (s, some (.authErr "Login failed"))
            else
              ({ s with access_token := some tok, access_exp := jwtExp tok }, none)
        | _ => (s, some (.pyExc "AttributeError"))

/-- Truthiness of `self._access_token` (absent is `None`). -/
def tokenTruthy (s : ApiState) : Bool :=
  match s.access_token with
  | some j => j.truthy
  | none => false

/-- Truthiness of `self._account_number` (a string; empty is falsy). -/
def accountTruthy (s : ApiState) : Bool :=
  match s.account_number with
  | some a => !a.isEmpty
  | none => false

/-- `_ensure_auth` (lines 179-190) on the successful path, counting the
`_login` calls it makes.  `doLogin` and `doLoadAccount` are the state
effects of a successful `_login` / `_load_account_number`; `now` is
epoch seconds and `timedelta(minutes=2)` is 120 seconds.  A stored
expiry (a datetime) is always truthy, so `if self._access_exp:` is the
`some` test. -/
def ensureAuth (doLogin : ApiState → ApiState) (doLoadAccount : ApiState → ApiState)
    (now : ℤ) (s : ApiState) : ApiState × Nat :=
  let p1 := if tokenTruthy s = false then (doLogin s, 1) else (s, 0)
  let p2 :=
    match p1.1.access_exp with
    | some e => if now + 120 ≥ e then (doLogin p1.1, p1.2 + 1) else p1
    | none => p1
  let s3 := if accountTruthy p2.1 = false then doLoadAccount p2.1 else p2.1
  (s3, p2.2)

/-- The marker can only move up: `markerLe n r` says that if `n` is a
string then `r` is a string at least as large. -/
def markerLe : Option String → Option String → Prop
  | none, _ => True
  | some a, r => ∃ u, r = some u ∧ strLtB u a = false

/-! ## Order facts for the ordinal string comparison -/

/-- `charListLtB` decides the lexicographic order `List.Lex` on
character lists. -/
lemma charListLtB_iff_lex : ∀ l1 l2 : List Char,
    charListLtB l1 l2 = true ↔ List.Lex (· < ·) l1 l2 := by
  intro l1
  induction l1 with
  | nil =>
    intro l2
    cases l2 with
    | nil =>
      constructor
      · intro h; simp [charListLtB] at h
      · intro h; exact absurd h (List.Lex.not_nil_right _ _)
    | cons b bs =>
      constructor
      · intro _; exact List.Lex.nil
      · intro _; rw [charListLtB]
  | cons a as ih =>
    intro l2
    cases l2 with
    | nil =>
      constructor
      · intro h; simp [charListLtB] at h
      · intro h; exact absurd h (List.Lex.not_nil_right _ _)
    | cons b bs =>
      by_cases hab : a < b
      · constructor
        · intro _; exact List.Lex.rel hab
        · intro _; rw [charListLtB]; simp [hab]
      · by_cases hba : b < a
        · constructor
          · intro h; rw [charListLtB] at h; simp [hab, hba] at h
          · intro h
            cases h with
            | rel h => exact absurd h hab
            | cons h => exact absurd hba (lt_irrefl _)
        · have hEq : a = b := le_antisymm (not_lt.mp hba) (not_lt.mp hab)
          subst hEq
          constructor
          · intro h
            rw [charListLtB] at h
            simp [hab] at h
            exact List.Lex.cons ((ih bs).mp h)
          · intro h
            rw [charListLtB]
            simp [hab]
            apply (ih bs).mpr
            cases h with
            | rel h => exact absurd h hab
            | cons h => exact h

/-- Trichotomy for the lexicographic order on character lists. -/
lemma lexChar_tri (c b : List Char) :
    List.Lex (· < ·) c b ∨ c = b ∨ List.Lex (· < ·) b c :=
  (List.Lex.isTrichotomous _).trichotomous c b

lemma strLtB_irrefl (s : String) : strLtB s s = false := by
  show charListLtB s.data s.data = false
  by_contra h
  rw [Bool.not_eq_false, charListLtB_iff_lex] at h
  exact absurd h (asymm_of (List.Lex (· < ·)) h)

lemma strLtB_asymm {a b : String} (h : strLtB a b = true) : strLtB b a = false := by
  show charListLtB b.data a.data = false
  by_contra h2
  rw [Bool.not_eq_false] at h2
  exact asymm_of (List.Lex (· < ·)) ((charListLtB_iff_lex a.data b.data).mp h)
    ((charListLtB_iff_lex b.data a.data).mp h2)

/-- From `a < b` and `¬(c < b)` (so `b ≤ c`), conclude `a < c`. -/
lemma strLtB_lt_of_lt_of_nlt {a b c : String}
    (h1 : strLtB a b = true) (h2 : strLtB c b = false) : strLtB a c = true := by
  have h2c : charListLtB c.data b.data = false := h2
  show charListLtB a.data c.data = true
  rw [charListLtB_iff_lex]
  replace h1 := (charListLtB_iff_lex a.data b.data).mp h1
  rcases lexChar_tri c.data b.data with h | h | h
  · rw [← charListLtB_iff_lex] at h
    rw [h] at h2c
    exact absurd h2c (by simp)
  · rw [h]; exact h1
  · exact trans_of (List.Lex (· < ·)) h1 h

/-- Transitivity of `≤` stated on the strict comparison: from `a ≤ b`
and `b ≤ c` conclude `a ≤ c` (each `x ≤ y` written `¬(y < x)`). -/
lemma strLtB_nlt_trans {a b c : String}
    (h1 : strLtB b a = false) (h2 : strLtB c b = false) : strLtB c a = false := by
  have h1c : charListLtB b.data a.data = false := h1
  have h2c : charListLtB c.data b.data = false := h2
  show charListLtB c.data a.data = false
  by_contra h
  rw [Bool.not_eq_false, charListLtB_iff_lex] at h
  rcases lexChar_tri b.data a.data with hba | hba | hba
  · rw [← charListLtB_iff_lex] at hba
    rw [hba] at h1c
    exact absurd h1c (by simp)
  · rw [hba] at h2c
    rw [← charListLtB_iff_lex] at h
    rw [h] at h2c
    exact absurd h2c (by simp)
  · rcases lexChar_tri c.data b.data with hcb | hcb | hcb
    · rw [← charListLtB_iff_lex] at hcb
      rw [hcb] at h2c
      exact absurd h2c (by simp)
    · rw [hcb] at h
      have hbb := trans_of (List.Lex (· < ·)) h hba
      exact absurd hbb (asymm_of (List.Lex (· < ·)) hbb)
    · have hac := trans_of (List.Lex (· < ·)) hba hcb
      have haa := trans_of (List.Lex (· < ·)) hac h
      exact absurd haa (asymm_of (List.Lex (· < ·)) haa)

/-! ## Accumulator lemmas -/

lemma validEnds_cons_none {j : Json} {l : List Json} (hj : itemFields j = none) :
    validEnds (j :: l) = validEnds l := by
  simp [validEnds, List.filterMap_cons, hj]

lemma validEnds_cons_some {j : Json} {l : List Json} {e : String} {q : ℚ}
    (hj : itemFields j = some (e, q)) :
    validEnds (j :: l) = e :: validEnds l := by
  simp [validEnds, List.filterMap_cons, hj]

lemma applyStep_invalid {m : Option String} {acc : ℚ × Option String} {j : Json}
    (hj : itemFields j = none) : applyStep m acc j = acc := by
  simp [applyStep, hj]

lemma applyStep_skip {m : Option String} {acc : ℚ × Option String} {j : Json}
    {e : String} {q : ℚ} (hj : itemFields j = some (e, q))
    (hA : afterItem m e = false) : applyStep m acc j = acc := by
  simp [applyStep, hj, hA]

lemma applyStep_add {m : Option String} {acc : ℚ × Option String} {j : Json}
    {e : String} {q : ℚ} (hj : itemFields j = some (e, q))
    (hA : afterItem m e = true) : applyStep m acc j = (acc.1 + q, some e) := by
  simp [applyStep, hj, hA]

/-- When `afterItem n e = false` the marker is a `some` and bounds `e`. -/
lemma afterItem_false_elim {n : Option String} {e : String}
    (h : afterItem n e = false) : ∃ n0, n = some n0 ∧ strLtB n0 e = false := by
  cases n with
  | none => simp [afterItem] at h
  | some n0 => exact ⟨n0, rfl, h⟩

lemma markerLe_refl (n : Option String) : markerLe n n := by
  cases n with
  | none => trivial
  | some a => exact ⟨a, rfl, strLtB_irrefl a⟩

lemma markerLe_trans {a b c : Option String}
    (h1 : markerLe a b) (h2 : markerLe b c) : markerLe a c := by
  cases a with
  | none => trivial
  | some a0 =>
    obtain ⟨u, rfl, hu⟩ := h1
    obtain ⟨w, rfl, hw⟩ := h2
    exact ⟨w, rfl, strLtB_nlt_trans hu hw⟩

/-- If no valid item of `l` passes the guard against the loop-entry
marker `m`, the loop changes nothing. -/
lemma applyList_skip (m : Option String) :
    ∀ (l : List Json) (t : ℚ) (n : Option String),
      (∀ e ∈ validEnds l, afterItem m e = false) →
      l.foldl (applyStep m) (t, n) = (t, n) := by
  intro l
  induction l with
  | nil => intro t n _h; rfl
  | cons j l ih =>
    intro t n h
    rw [List.foldl_cons]
    cases hj : itemFields j with
    | none =>
      rw [applyStep_invalid hj]
      exact ih t n (by rw [validEnds_cons_none hj] at h; exact h)
    | some p =>
      obtain ⟨e0, q⟩ := p
      rw [validEnds_cons_some hj] at h
      rw [applyStep_skip hj (h e0 (List.mem_cons_self _ _))]
      exact ih t n (fun e he => h e (List.mem_cons_of_mem _ he))

/-- Main loop invariant: if the valid end markers of `l` are ascending,
every valid end of `l` that passed the entry guard `m` bounds the
working marker `n` from above, and every valid end either passes the
entry guard or is bounded by `n`, then after the loop the final marker
bounds every valid end of `l` from above and has only moved up from
`n`. -/
lemma applyList_marker (m : Option String) :
    ∀ (l : List Json) (t : ℚ) (n : Option String),
      (validEnds l).Pairwise (fun a b => strLtB b a = false) →
      (∀ e ∈ validEnds l, afterItem m e = true ∨ afterItem n e = false) →
      (∀ e ∈ validEnds l, afterItem m e = true → markerLe n (some e)) →
      (∀ e ∈ validEnds l, afterItem (l.foldl (applyStep m) (t, n)).2 e = false) ∧
        markerLe n (l.foldl (applyStep m) (t, n)).2 := by
  intro l
  induction l with
  | nil =>
    intro t n _ _ _
    exact ⟨by intro e he; simp [validEnds] at he, markerLe_refl n⟩
  | cons j l ih =>
    intro t n hP h2 h3
    rw [List.foldl_cons]
    cases hj : itemFields j with
    | none =>
      rw [applyStep_invalid hj]
      rw [validEnds_cons_none hj] at hP h2 h3
      obtain ⟨ih1, ih2⟩ := ih t n hP h2 h3
      refine ⟨?_, ih2⟩
      rw [validEnds_cons_none hj]
      exact ih1
    | some p =>
      obtain ⟨e0, q⟩ := p
      rw [validEnds_cons_some hj] at hP h2 h3
      have h0 : ∀ e ∈ validEnds l, strLtB e e0 = false :=
        (List.pairwise_cons.mp hP).1
      have hPl : (validEnds l).Pairwise (fun a b => strLtB b a = false) :=
        (List.pairwise_cons.mp hP).2
      cases hA : afterItem m e0 with
      | true =>
        rw [applyStep_add hj hA]
        have h2l : ∀ e ∈ validEnds l,
            afterItem m e = true ∨ afterItem (some e0) e = false := by
          intro e he
          left
          cases m with
          | none => rfl
          | some m0 => exact strLtB_lt_of_lt_of_nlt hA (h0 e he)
        have h3l : ∀ e ∈ validEnds l,
            afterItem m e = true → markerLe (some e0) (some e) := by
          intro e he _
          exact ⟨e, rfl, h0 e he⟩
        obtain ⟨ih1, ih2⟩ := ih (t + q) (some e0) hPl h2l h3l
        constructor
        · intro e he
          rw [validEnds_cons_some hj] at he
          rcases List.mem_cons.mp he with rfl | he
          · obtain ⟨u, hr, hu⟩ := ih2
            rw [hr]
            exact hu
          · exact ih1 e he
        · exact markerLe_trans (h3 e0 (List.mem_cons_self _ _) hA) ih2
      | false =>
        rw [applyStep_skip hj hA]
        have h2l : ∀ e ∈ validEnds l,
            afterItem m e = true ∨ afterItem n e = false :=
          fun e he => h2 e (List.mem_cons_of_mem _ he)
        have h3l : ∀ e ∈ validEnds l, afterItem m e = true → markerLe n (some e) :=
          fun e he => h3 e (List.mem_cons_of_mem _ he)
        obtain ⟨ih1, ih2⟩ := ih t n hPl h2l h3l
        constructor
        · intro e he
          rw [validEnds_cons_some hj] at he
          rcases List.mem_cons.mp he with rfl | he
          · have hne : afterItem n e = false := by
              rcases h2 e (List.mem_cons_self _ _) with h | h
              · rw [h] at hA; cases hA
              · exact h
            obtain ⟨n0, rfl, hn0⟩ := afterItem_false_elim hne
            obtain ⟨u, hr, hu⟩ := ih2
            rw [hr]
            exact strLtB_nlt_trans hn0 hu
          · exact ih1 e he
        · exact ih2

/-- A well-formed item round-trips through the loop's type guards. -/
lemma itemFields_mkItem (p : String × ℚ) : itemFields (mkItem p) = some p := rfl

/-- Characterization of the loop on a list of well-formed items: the
total grows by exactly the values of the items passing the entry guard,
and the final marker is the end of the last passing item (or the initial
working marker when none passes). -/
lemma applyList_map_char (m : Option String) :
    ∀ (l : List (String × ℚ)) (t : ℚ) (n : Option String),
      (l.map mkItem).foldl (applyStep m) (t, n) =
        (t + ((l.filter fun p => afterItem m p.1).map Prod.snd).sum,
         match (l.filter fun p => afterItem m p.1).getLast? with
         | none => n
         | some p => some p.1) := by
  intro l
  induction l with
  | nil => intro t n; simp
  | cons p l ih =>
    intro t n
    rw [List.map_cons, List.foldl_cons]
    cases hA : afterItem m p.1 with
    | false =>
      rw [applyStep_skip (itemFields_mkItem p) hA]
      rw [ih t n]
      simp [List.filter_cons, hA]
    | true =>
      rw [applyStep_add (itemFields_mkItem p) hA]
      rw [ih (t + p.2) (some p.1)]
      rw [List.filter_cons]
      simp only [hA, if_true]
      cases hfl : (l.filter fun p => afterItem m p.1) with
      | nil => simp [add_assoc]
      | cons p2 l2 =>
        cases hgl : (p2 :: l2).getLast? with
        | none => simp at hgl
        | some x => simp [List.getLast?_cons_cons, hgl, add_assoc]

/-- If every item's value is non-negative, the loop cannot decrease the
running total. -/
lemma applyList_mono (m : Option String) :
    ∀ (l : List Json) (acc : ℚ × Option String),
      (∀ j ∈ l, 0 ≤ itemKwh j) →
      acc.1 ≤ (l.foldl (applyStep m) acc).1 := by
  intro l
  induction l with
  | nil => intro acc _; exact le_refl _
  | cons j l ih =>
    intro acc h
    rw [List.foldl_cons]
    have hrest := ih (applyStep m acc j) (fun j2 hj2 => h j2 (List.mem_cons_of_mem _ hj2))
    refine le_trans ?_ hrest
    cases hj : itemFields j with
    | none => rw [applyStep_invalid hj]
    | some p =>
      obtain ⟨e, q⟩ := p
      have hq : 0 ≤ q := by
        have hh := h j (List.mem_cons_self _ _)
        rw [itemKwh, hj] at hh
        simpa using hh
      cases hA : afterItem m e with
      | false => rw [applyStep_skip hj hA]
      | true =>
        rw [applyStep_add hj hA]
        exact le_add_of_nonneg_right hq

/-- C1: from a restored state with total `t` and marker `m`, one tick of
`_apply_recent` over a recent-readings list that is ascending by end
marker adds to the total exactly the values of the items whose end
marker is strictly greater than `m` in the ordinal string comparison
(items equal to or below `m` are skipped), and leaves `last_applied_end`
at the end marker of the last item added (unchanged at `m` when none
is). -/
theorem c1_applyRecent_adds_after_marker (t : ℚ) (m : String) (l : List (String × ℚ))
    (_hasc : (l.map Prod.fst).Pairwise (fun a b => strLtB b a = false)) :
    applyRecent t (some m) (l.map mkItem) =
      (t + ((l.filter fun p => strLtB m p.1).map Prod.snd).sum,
       match (l.filter fun p => strLtB m p.1).getLast? with
       | none => some m
       | some p => some p.1) :=
  applyList_map_char (some m) l t (some m)

/-- C1 witness: the spec's restart example, state
`(total = 12.5, last_applied_end = "2024-01-01T00:30:00+09:00")` with a
tick carrying end markers 00:30 and 01:00 and values 0.3 and 0.4: only
the second item applies, the total becomes 12.9 and the marker 01:00. -/
theorem c1_witness :
    (([("2024-01-01T00:30:00+09:00", (0.3 : ℚ)),
       ("2024-01-01T01:00:00+09:00", (0.4 : ℚ))].map Prod.fst).Pairwise
        (fun a b => strLtB b a = false)) ∧
    applyRecent 12.5 (some "2024-01-01T00:30:00+09:00")
      ([("2024-01-01T00:30:00+09:00", (0.3 : ℚ)),
        ("2024-01-01T01:00:00+09:00", (0.4 : ℚ))].map mkItem) =
      (12.9, some "2024-01-01T01:00:00+09:00") := by
  constructor
  · decide
  · rw [c1_applyRecent_adds_after_marker 12.5 _ _ (by decide)]
    have h1 : strLtB "2024-01-01T00:30:00+09:00" "2024-01-01T00:30:00+09:00" = false := by
      decide
    have h2 : strLtB "2024-01-01T00:30:00+09:00" "2024-01-01T01:00:00+09:00" = true := by
      decide
    simp only [List.filter_cons, h1, h2, if_true, Bool.false_eq_true, if_false,
      List.filter_nil, List.map_cons, List.map_nil, List.sum_cons, List.sum_nil,
      List.getLast?_singleton, Prod.mk.injEq]
    exact ⟨by norm_num, trivial⟩

/-- C2 counterexample: the claim quantifies over every recent-readings
list, but nothing in `_apply_recent` checks the sign of `kwh`; an item
with a negative value strictly decreases the total (here from 0 to -1),
so the total is not non-decreasing over all inputs. -/
theorem c2_counterexample :
    (applyRecent 0 none [mkItem ("a", -1)]).1 < 0 := by
  unfold applyRecent
  rw [List.foldl_cons, List.foldl_nil,
    @applyStep_add none (0, none) (mkItem ("a", -1)) "a" (-1) (itemFields_mkItem _) rfl]
  norm_num

/-- C2 (amended): for every tick whose items all carry a non-negative
`kwh` value, the accumulator's total never decreases; `_apply_recent`
itself never resets the total. -/
theorem c2_total_monotone (t : ℚ) (m : Option String) (l : List Json)
    (h : ∀ j ∈ l, 0 ≤ itemKwh j) :
    t ≤ (applyRecent t m l).1 :=
  applyList_mono m l (t, m) h

/-- C2 witness: a concrete non-negative tick keeps the total at least
its previous value. -/
theorem c2_witness :
    (∀ j ∈ [mkItem ("a", (1 : ℚ))], 0 ≤ itemKwh j) ∧
    (1 : ℚ) ≤ (applyRecent 1 none [mkItem ("a", (1 : ℚ))]).1 := by
  have hpos : ∀ j ∈ [mkItem ("a", (1 : ℚ))], 0 ≤ itemKwh j := by
    intro j hj
    rw [List.mem_singleton] at hj
    subst hj
    rw [itemKwh, itemFields_mkItem]
    norm_num
  exact ⟨hpos, c2_total_monotone 1 none _ hpos⟩

/-- C3: applying the same recent-readings list (ascending by end
marker) in two consecutive ticks is idempotent: the second tick adds
nothing and leaves both total and marker unchanged. -/
theorem c3_applyRecent_idempotent (t : ℚ) (m : Option String) (l : List Json)
    (hasc : (validEnds l).Pairwise (fun a b => strLtB b a = false)) :
    applyRecent (applyRecent t m l).1 (applyRecent t m l).2 l = applyRecent t m l := by
  have h2 : ∀ e ∈ validEnds l, afterItem m e = true ∨ afterItem m e = false := by
    intro e _
    cases hb : afterItem m e with
    | true => exact Or.inl rfl
    | false => exact Or.inr rfl
  have h3 : ∀ e ∈ validEnds l, afterItem m e = true → markerLe m (some e) := by
    intro e _ hA
    cases m with
    | none => trivial
    | some m0 => exact ⟨e, rfl, strLtB_asymm hA⟩
  obtain ⟨hfin, _⟩ := applyList_marker m l t m hasc h2 h3
  unfold applyRecent
  exact applyList_skip _ l _ _ hfin

/-- C3 witness: a concrete ascending tick applied twice equals the
single application. -/
theorem c3_witness :
    (validEnds [mkItem ("a", (1 : ℚ)), mkItem ("b", (2 : ℚ))]).Pairwise
      (fun a b => strLtB b a = false) ∧
    applyRecent
        (applyRecent 0 none [mkItem ("a", (1 : ℚ)), mkItem ("b", (2 : ℚ))]).1
        (applyRecent 0 none [mkItem ("a", (1 : ℚ)), mkItem ("b", (2 : ℚ))]).2
        [mkItem ("a", (1 : ℚ)), mkItem ("b", (2 : ℚ))] =
      applyRecent 0 none [mkItem ("a", (1 : ℚ)), mkItem ("b", (2 : ℚ))] :=
  ⟨by decide, c3_applyRecent_idempotent 0 none _ (by decide)⟩

/-! ## Claims about the response classification -/

/-- Evaluation of `_post` on a success-status response whose body
carries truthy `errors`: the branch at api.py lines 150-155. -/
lemma postOutcome_lt400_errs (status : Nat) (fields : List (String × Json))
    (errs : Json) (hs : status < 400) (he : jget fields "errors" = some errs)
    (ht : errs.truthy = true) :
    postOutcome status (Json.obj fields) =
      (if pyIn "Unauthorized" (pyStr errs) || pyIn "UNAUTHENTICATED" (pyStr errs)
       then PostResult.authError (pyStr errs)
       else PostResult.apiError (pyStr errs)) := by
  simp only [postOutcome]
  rw [he]
  rw [if_neg (Nat.not_le.mpr hs)]
  simp [optTruthy, ht]

/-- C6: for a response with status < 400 whose parsed body carries a
truthy `errors` value, the client raises `OEJPAuthError` exactly when
the stringified errors contain `"Unauthorized"` or `"UNAUTHENTICATED"`,
and `OEJPApiError` otherwise. -/
theorem c6_postOutcome_auth_classification (status : Nat)
    (fields : List (String × Json)) (errs : Json)
    (hs : status < 400) (he : jget fields "errors" = some errs)
    (ht : errs.truthy = true) :
    (postOutcome status (Json.obj fields) = PostResult.authError (pyStr errs) ↔
      (pyIn "Unauthorized" (pyStr errs) || pyIn "UNAUTHENTICATED" (pyStr errs)) = true) ∧
    ((pyIn "Unauthorized" (pyStr errs) || pyIn "UNAUTHENTICATED" (pyStr errs)) = false →
      postOutcome status (Json.obj fields) = PostResult.apiError (pyStr errs)) := by
  rw [postOutcome_lt400_errs status fields errs hs he ht]
  cases hc : pyIn "Unauthorized" (pyStr errs) || pyIn "UNAUTHENTICATED" (pyStr errs) with
  | true => simp
  | false => simp

/-- C6 witness: an `UNAUTHENTICATED` GraphQL error on a 200 response is
classified as an auth error. -/
theorem c6_witness :
    (200 < 400) ∧
    jget [("errors", Json.arr [Json.str "UNAUTHENTICATED"])] "errors" =
      some (Json.arr [Json.str "UNAUTHENTICATED"]) ∧
    (Json.arr [Json.str "UNAUTHENTICATED"]).truthy = true ∧
    ((postOutcome 200 (Json.obj [("errors", Json.arr [Json.str "UNAUTHENTICATED"])]) =
        PostResult.authError (pyStr (Json.arr [Json.str "UNAUTHENTICATED"])) ↔
      (pyIn "Unauthorized" (pyStr (Json.arr [Json.str "UNAUTHENTICATED"])) ||
       pyIn "UNAUTHENTICATED" (pyStr (Json.arr [Json.str "UNAUTHENTICATED"]))) = true) ∧
     ((pyIn "Unauthorized" (pyStr (Json.arr [Json.str "UNAUTHENTICATED"])) ||
       pyIn "UNAUTHENTICATED" (pyStr (Json.arr [Json.str "UNAUTHENTICATED"]))) = false →
      postOutcome 200 (Json.obj [("errors", Json.arr [Json.str "UNAUTHENTICATED"])]) =
        PostResult.apiError (pyStr (Json.arr [Json.str "UNAUTHENTICATED"])))) :=
  ⟨by norm_num, rfl, rfl,
    c6_postOutcome_auth_classification 200 _ _ (by norm_num) rfl rfl⟩

/-- C7 counterexample: a success-status body that parses to a JSON
array (not an object) hits `body.get("errors")` and raises an uncaught
`AttributeError`, not `OEJPApiError("Missing data")`, so the claim's
"never any other kind of exception" fails for non-object bodies. -/
theorem c7_counterexample :
    postOutcome 200 (Json.arr [Json.str "ok"]) = PostResult.pyError "AttributeError" ∧
    postOutcome 200 (Json.arr [Json.str "ok"]) ≠ PostResult.apiError "Missing data" :=
  ⟨rfl, fun h => PostResult.noConfusion h⟩

/-- C7 (amended): for a success-status body that parses to a JSON
object carrying no truthy `errors`, if the `data` field is absent or
not an object the client raises `OEJPApiError("Missing data")`; a body
that is not a JSON object instead escapes with an `AttributeError`. -/
theorem c7_missing_data (status : Nat) (fields : List (String × Json))
    (hs : status < 400)
    (he : optTruthy (jget fields "errors") = false)
    (hd : ∀ d, jget fields "data" = some (Json.obj d) → False) :
    postOutcome status (Json.obj fields) = PostResult.apiError "Missing data" := by
  simp only [postOutcome]
  rw [if_neg (Nat.not_le.mpr hs)]
  rw [he]
  simp only [Bool.false_eq_true, if_false]

/-- C7 witness: a 200 response whose `data` is a string yields the
"Missing data" protocol error. -/
theorem c7_witness :
    (200 < 400) ∧
    optTruthy (jget [("data", Json.str "x")] "errors") = false ∧
    postOutcome 200 (Json.obj [("data", Json.str "x")]) =
      PostResult.apiError "Missing data" :=
  ⟨by norm_num, rfl,
    c7_missing_data 200 _ (by norm_num) rfl (fun d h => by simp [jget] at h)⟩

/-! ## Claims about the readings response shape -/

/-- C8 counterexample: a null intermediate value
(`\x7b"account": null\x7d`) makes `data["account"]["properties"]`
subscript `None`, a `TypeError`, which the `except KeyError` clause
does not catch; the fetch escapes with an uncaught exception instead of
an `OEJPApiError` naming the missing segment. -/
theorem c8_counterexample :
    extractHH [("account", Json.null)] = ShapeResult.pyError "TypeError" ∧
    extractHH [("account", Json.null)] ≠
      ShapeResult.apiError "Unexpected response shape missing \x27properties\x27" :=
  ⟨rfl, fun h => ShapeResult.noConfusion h⟩

/-- C8 (amended): a missing key at any level of
`account -> properties[0] -> electricitySupplyPoints[0] ->
halfHourlyReadings` raises `OEJPApiError` naming the missing segment,
and empty `properties` / `electricitySupplyPoints` raise the
corresponding `OEJPApiError`; but a null (or otherwise unsubscriptable)
intermediate value escapes as an uncaught `TypeError` instead. -/
theorem c8_shape_errors :
    (∀ d : List (String × Json), jget d "account" = none →
      extractHH d = ShapeResult.apiError
        "Unexpected response shape missing \x27account\x27") ∧
    (∀ (d : List (String × Json)) (a : List (String × Json)),
      jget d "account" = some (Json.obj a) → jget a "properties" = none →
      extractHH d = ShapeResult.apiError
        "Unexpected response shape missing \x27properties\x27") ∧
    (∀ (d a : List (String × Json)) (p : Json),
      jget d "account" = some (Json.obj a) → jget a "properties" = some p →
      p.truthy = false →
      extractHH d = ShapeResult.apiError "No properties returned") ∧
    (∀ (d a pf : List (String × Json)) (rest : List Json),
      jget d "account" = some (Json.obj a) →
      jget a "properties" = some (Json.arr (Json.obj pf :: rest)) →
      jget pf "electricitySupplyPoints" = none →
      extractHH d = ShapeResult.apiError
        "Unexpected response shape missing \x27electricitySupplyPoints\x27") ∧
    (∀ (d a pf : List (String × Json)) (rest : List Json) (esp : Json),
      jget d "account" = some (Json.obj a) →
      jget a "properties" = some (Json.arr (Json.obj pf :: rest)) →
      jget pf "electricitySupplyPoints" = some esp → esp.truthy = false →
      extractHH d = ShapeResult.apiError "No electricitySupplyPoints returned") ∧
    (∀ (d a pf ef : List (String × Json)) (rest erest : List Json),
      jget d "account" = some (Json.obj a) →
      jget a "properties" = some (Json.arr (Json.obj pf :: rest)) →
      jget pf "electricitySupplyPoints" = some (Json.arr (Json.obj ef :: erest)) →
      jget ef "halfHourlyReadings" = none →
      extractHH d = ShapeResult.apiError
        "Unexpected response shape missing \x27halfHourlyReadings\x27") := by
  refine ⟨?_, ?_, ?_, ?_, ?_, ?_⟩
  · intro d h
    simp [extractHH, sub, h, shapeErr]
  · intro d a h1 h2
    simp [extractHH, sub, h1, h2, shapeErr]
  · intro d a p h1 h2 h3
    simp [extractHH, sub, h1, h2, h3, shapeErr]
  · intro d a pf rest h1 h2 h3
    have hp : (Json.arr (Json.obj pf :: rest)).truthy = true := by simp [Json.truthy]
    simp [extractHH, sub, sub0, h1, h2, h3, hp, shapeErr]
  · intro d a pf rest esp h1 h2 h3 h4
    have hp : (Json.arr (Json.obj pf :: rest)).truthy = true := by simp [Json.truthy]
    simp [extractHH, sub, sub0, h1, h2, h3, h4, hp, shapeErr]
  · intro d a pf ef rest erest h1 h2 h3 h4
    have hp : (Json.arr (Json.obj pf :: rest)).truthy = true := by simp [Json.truthy]
    have hq : (Json.arr (Json.obj ef :: erest)).truthy = true := by simp [Json.truthy]
    simp [extractHH, sub, sub0, h1, h2, h3, h4, hp, hq, shapeErr]

/-- C8 witness: each amended case at a concrete response. -/
theorem c8_witness :
    extractHH [] =
      ShapeResult.apiError "Unexpected response shape missing \x27account\x27" ∧
    extractHH [("account", Json.obj [])] =
      ShapeResult.apiError "Unexpected response shape missing \x27properties\x27" ∧
    extractHH [("account", Json.obj [("properties", Json.arr [])])] =
      ShapeResult.apiError "No properties returned" ∧
    extractHH [("account", Json.obj [("properties", Json.arr [Json.obj []])])] =
      ShapeResult.apiError
        "Unexpected response shape missing \x27electricitySupplyPoints\x27" ∧
    extractHH [("account", Json.obj [("properties",
        Json.arr [Json.obj [("electricitySupplyPoints", Json.arr [])]])])] =
      ShapeResult.apiError "No electricitySupplyPoints returned" ∧
    extractHH [("account", Json.obj [("properties",
        Json.arr [Json.obj [("electricitySupplyPoints",
          Json.arr [Json.obj []])]])])] =
      ShapeResult.apiError
        "Unexpected response shape missing \x27halfHourlyReadings\x27" :=
  ⟨c8_shape_errors.1 [] rfl,
   c8_shape_errors.2.1 _ [] rfl rfl,
   c8_shape_errors.2.2.1 _ [("properties", Json.arr [])] (Json.arr []) rfl rfl rfl,
   c8_shape_errors.2.2.2.1 _ [("properties", Json.arr [Json.obj []])] [] [] rfl rfl rfl,
   c8_shape_errors.2.2.2.2.1 _
     [("properties", Json.arr [Json.obj [("electricitySupplyPoints", Json.arr [])]])]
     [("electricitySupplyPoints", Json.arr [])] [] (Json.arr []) rfl rfl rfl rfl,
   c8_shape_errors.2.2.2.2.2 _
     [("properties",
        Json.arr [Json.obj [("electricitySupplyPoints", Json.arr [Json.obj []])]])]
     [("electricitySupplyPoints", Json.arr [Json.obj []])] [] [] [] rfl rfl rfl rfl⟩

/-! ## Sorting of fetched readings -/

/-- C5: whatever the upstream order of the raw readings, the list the
fetch returns is sorted ascending by `start_at` (line 270,
`readings.sort(key=lambda x: x.start_at)`), and is a permutation of the
constructed readings. -/
theorem c5_sortReadings_sorted (l : List HHReading) :
    (sortReadings l).Pairwise (fun a b => a.start_at ≤ b.start_at) ∧
    List.Perm (sortReadings l) l := by
  constructor
  · have htrans : ∀ a b c : HHReading,
        decide (a.start_at ≤ b.start_at) → decide (b.start_at ≤ c.start_at) →
        decide (a.start_at ≤ c.start_at) := by
      intro a b c hab hbc
      simp only [decide_eq_true_eq] at *
      omega
    have htotal : ∀ a b : HHReading,
        (decide (a.start_at ≤ b.start_at) || decide (b.start_at ≤ a.start_at)) = true := by
      intro a b
      simp only [Bool.or_eq_true, decide_eq_true_eq]
      exact le_total _ _
    have h := List.sorted_mergeSort htrans htotal l
    exact h.imp (fun hx => of_decide_eq_true hx)
  · exact List.mergeSort_perm l _

/-! ## Dashboard bucketing -/

/-- C4: per reading, the month family adds to month-to-date exactly when
`start >= month_start`, else to last-month exactly when the start lies
in `[prev_month_start, prev_month_end)`; independently, the day family
adds to today exactly when `start >= today_midnight` (so a reading at
the midnight boundary counts toward today, not yesterday), else to
yesterday exactly when the start lies in `[yesterday_midnight,
today_midnight)`; and a reading past both boundaries counts toward both
month-to-date and today at once. -/
theorem c4_bucketStep_characterization (bd : DashBounds) (b : Buckets)
    (st : ℤ) (v : ℚ) :
    ((bucketStep bd b st v).mtd_kwh =
        b.mtd_kwh + (if st ≥ bd.month_start then v else 0)) ∧
    ((bucketStep bd b st v).last_month_kwh =
        b.last_month_kwh +
          (if ¬st ≥ bd.month_start ∧ st ≥ bd.prev_month_start ∧ st < bd.prev_month_end
           then v else 0)) ∧
    ((bucketStep bd b st v).today_kwh =
        b.today_kwh + (if st ≥ bd.today_mid then v else 0)) ∧
    ((bucketStep bd b st v).yday_kwh =
        b.yday_kwh +
          (if ¬st ≥ bd.today_mid ∧ st ≥ bd.yday_mid ∧ st < bd.today_mid
           then v else 0)) ∧
    ((bucketStep bd b bd.today_mid v).today_kwh = b.today_kwh + v ∧
      (bucketStep bd b bd.today_mid v).yday_kwh = b.yday_kwh) ∧
    (st ≥ bd.month_start → st ≥ bd.today_mid →
      (bucketStep bd b st v).mtd_kwh = b.mtd_kwh + v ∧
      (bucketStep bd b st v).today_kwh = b.today_kwh + v) := by
  refine ⟨?_, ?_, ?_, ?_, ⟨?_, ?_⟩, ?_⟩
  · simp only [bucketStep]
    split_ifs <;> simp_all
  · simp only [bucketStep]
    split_ifs <;> simp_all
  · simp only [bucketStep]
    split_ifs <;> simp_all
  · simp only [bucketStep]
    split_ifs <;> simp_all
  · simp only [bucketStep]
    split_ifs <;> simp_all
  · simp only [bucketStep]
    split_ifs <;> simp_all
  · intro h1 h2
    simp only [bucketStep]
    split_ifs
    simp_all

/-- C4 witness: with concrete boundaries (month starts at 100, previous
month at 50, today's midnight at 130) a reading starting at 200 counts
toward both month-to-date and today. -/
theorem c4_witness :
    ((200 : ℤ) ≥ (⟨100, 50, 100, 130, 130 - 86400⟩ : DashBounds).month_start) ∧
    ((200 : ℤ) ≥ (⟨100, 50, 100, 130, 130 - 86400⟩ : DashBounds).today_mid) ∧
    ((bucketStep ⟨100, 50, 100, 130, 130 - 86400⟩ ⟨0, 0, 0, 0⟩ 200 1).mtd_kwh =
        (⟨0, 0, 0, 0⟩ : Buckets).mtd_kwh + 1 ∧
      (bucketStep ⟨100, 50, 100, 130, 130 - 86400⟩ ⟨0, 0, 0, 0⟩ 200 1).today_kwh =
        (⟨0, 0, 0, 0⟩ : Buckets).today_kwh + 1) :=
  ⟨by norm_num, by norm_num,
    (c4_bucketStep_characterization ⟨100, 50, 100, 130, 130 - 86400⟩ ⟨0, 0, 0, 0⟩
      200 1).2.2.2.2.2 (by norm_num) (by norm_num)⟩

/-! ## Auth session claims -/

/-- C9: with a (truthy) token present, one `_ensure_auth` call performs
exactly one re-login when the decoded expiry is known and within two
minutes of now, and none when the expiry is unknown. -/
theorem c9_ensureAuth_relogin_count (doLogin doLoadAccount : ApiState → ApiState)
    (now : ℤ) (s : ApiState) (ht : tokenTruthy s = true) :
    (∀ e, s.access_exp = some e → now + 120 ≥ e →
      (ensureAuth doLogin doLoadAccount now s).2 = 1) ∧
    (s.access_exp = none → (ensureAuth doLogin doLoadAccount now s).2 = 0) := by
  constructor
  · intro e he hle
    simp [ensureAuth, ht, he, hle]
  · intro he
    simp [ensureAuth, ht, he]

/-- C9 witness: a session with token `"t"`, expiry 100 and now 0
re-logs in exactly once. -/
theorem c9_witness :
    tokenTruthy ⟨some (Json.str "t"), some 100, some "A"⟩ = true ∧
    (0 : ℤ) + 120 ≥ 100 ∧
    (ensureAuth id id 0 ⟨some (Json.str "t"), some 100, some "A"⟩).2 = 1 :=
  ⟨rfl, by norm_num,
    (c9_ensureAuth_relogin_count id id 0 ⟨some (Json.str "t"), some 100, some "A"⟩
      rfl).1 100 rfl (by norm_num)⟩

/-- C10: `_login` mutates the stored token and expiry only on success;
on every failing path (a raised transport/protocol/auth error from the
POST, a missing or falsy `obtainKrakenToken`, a missing or falsy
`token`, or a non-dict `obtainKrakenToken`) the session state is left
exactly as it was. -/
theorem c10_login_atomic (jwtExp : Json → Option ℤ) (s : ApiState)
    (r : Except ExcKind (List (String × Json))) (e : ExcKind)
    (h : (loginStep jwtExp s r).2 = some e) :
    (loginStep jwtExp s r).1 = s := by
  cases r with
  | error e2 => rfl
  | ok data =>
    simp only [loginStep] at h ⊢
    cases hg : jget data "obtainKrakenToken" with
    | none => simp [hg]
    | some o =>
      simp only [hg] at h ⊢
      by_cases hot : o.truthy = false
      · simp [hot]
      · simp only [hot, if_false] at h ⊢
        cases o with
        | null => rfl
        | bool b => rfl
        | num q => rfl
        | str s2 => rfl
        | arr xs => rfl
        | obj fs =>
          cases hk : jget fs "token" with
          | none => simp [hk]
          | some tok =>
            simp only [hk] at h ⊢
            by_cases htt : tok.truthy = false
            · simp [htt]
            · simp only [htt, if_false] at h
              exact absurd h (by simp)

/-- C10 witness: a failed POST (transport error) leaves the session
state untouched. -/
theorem c10_witness :
    (loginStep (fun _ => none) ⟨none, none, none⟩
        (Except.error (ExcKind.apiErr "HTTP 500"))).2 =
      some (ExcKind.apiErr "HTTP 500") ∧
    (loginStep (fun _ => none) ⟨none, none, none⟩
        (Except.error (ExcKind.apiErr "HTTP 500"))).1 = ⟨none, none, none⟩ :=
  ⟨rfl, c10_login_atomic (fun _ => none) ⟨none, none, none⟩
    (Except.error (ExcKind.apiErr "HTTP 500")) (ExcKind.apiErr "HTTP 500") rfl⟩
